import Mathlib

/-!
Shallow embedding of the githist command-interception core (src/src/main.rs).

The embedding follows the Rust source line by line:
  - `GitCommand` embeds the Rust enum `GitCommand` (31 variants, including
    the catch-all `InvalidCommand`).
  - `splitSpaces` / `splitCmd` model Rust's `str::split(" ")`: splitting on
    the single space character, keeping empty segments, always yielding at
    least one segment.
  - `GitCommandState.extract_git_command` embeds the verb lookup on the
    first space-separated token; a Rust `match` on `&str` literals is a
    sequence of equality tests, embedded as an if-chain.
  - `command_is_mutate` embeds the mutating-verb predicate.
  - `GitCommandState.process_affected_files` embeds the affected-file scan;
    the filesystem is abstracted as an oracle `fsExists : String → Bool`
    standing for `Path::new(tok).exists()`.
  - `utf8Decode` models strict UTF-8 validation/decoding as performed by
    Rust's `String::from_utf8` (reject continuation-byte leads, overlong
    lead bytes 0xC0/0xC1, surrogates, codepoints above 0x10FFFF, lead bytes
    0xF5 and above).
  - `get_current_branch` / `get_current_commit` take the introspection
    subprocess's stdout bytes; `none` models the `unwrap` panic on invalid
    UTF-8.
  - `GitCommandState.new` embeds the record builder; `add_command_history`
    embeds the DB insert (the UUID and the timestamp are parameters, the
    stored `command` column value is the serde_json serialization of the
    `GitCommandState`, modelled by `serializeGitCommandState`).
  - `mutateActions` / `mutateActionsOutput` embed the `mutate-actions`
    query loop (filter by `command_is_mutate` on the stored column, print
    one line `<id> <command> <created_at>` per match).
-/

/-- Embeds the Rust enum `GitCommand`. -/
inductive GitCommand where
  | Add | Apply | Bisect | Branch | Checkout | CherryPick | Clean | Clone
  | Commit | Fetch | FilterBranch | Fsck | Gc | Init | Merge | Mv | Pull
  | Push | Rebase | Remote | Reset | Restore | Rm | Stash | Submodule
  | Switch | Tag | UpdateIndex | UpdateRef | WriteTree | InvalidCommand
deriving DecidableEq, Repr

/-- Embeds the Rust struct `GitCommandState`. -/
structure GitCommandState where
  command : GitCommand
  files_affected : List String
  current_branch : String
  current_commit : String
deriving DecidableEq, Repr

/-- Models Rust `str::split(" ")` at the character-list level: split on the
single space character, keeping empty segments; always returns at least one
segment. -/
def splitSpaces : List Char → List (List Char)
  | [] => [[]]
  | c :: cs =>
    if c = ' ' then [] :: splitSpaces cs
    else
      match splitSpaces cs with
      | t :: ts => (c :: t) :: ts
      | [] => [[c]]

/-- Models Rust `command.split(" ")` on strings. -/
def splitCmd (s : String) : List String :=
  (splitSpaces s.data).map (fun l => String.mk l)

/-- Models `command.split(" ").next().unwrap_or_else(|| "")`: the first
space-separated token (the split iterator always yields at least one item,
so the default is never used). -/
def firstToken (s : String) : String :=
  (splitCmd s).headD ""

/-- Embeds `command_is_mutate` (src/src/main.rs lines 88-122): a Rust match
on string literals, i.e. sequential whole-string equality tests. -/
def command_is_mutate (command : String) : Bool :=
  if command = "add" then true
  else if command = "apply" then true
  else if command = "bisect" then true
  else if command = "branch" then true
  else if command = "checkout" then true
  else if command = "cherry-pick" then true
  else if command = "clean" then true
  else if command = "clone" then true
  else if command = "commit" then true
  else if command = "fetch" then true
  else if command = "filter-branch" then true
  else if command = "fsck" then true
  else if command = "gc" then true
  else if command = "init" then true
  else if command = "merge" then true
  else if command = "mv" then true
  else if command = "pull" then true
  else if command = "push" then true
  else if command = "rebase" then true
  else if command = "remote" then true
  else if command = "reset" then true
  else if command = "restore" then true
  else if command = "rm" then true
  else if command = "stash" then true
  else if command = "submodule" then true
  else if command = "switch" then true
  else if command = "tag" then true
  else if command = "update-index" then true
  else if command = "update-ref" then true
  else if command = "write-tree" then true
  else false

/-- Embeds `GitCommandState::extract_git_command` (lines 185-219): match the
first space-separated token of the command against the verb table, returning
an error for anything else. The Rust code binds the first token once; the
embedding inlines the pure expression `firstToken command`, which is
equivalent. -/
def GitCommandState.extract_git_command (command : String) : Except String GitCommand :=
  if firstToken command = "add" then Except.ok GitCommand.Add
  else if firstToken command = "apply" then Except.ok GitCommand.Apply
  else if firstToken command = "bisect" then Except.ok GitCommand.Bisect
  else if firstToken command = "branch" then Except.ok GitCommand.Branch
  else if firstToken command = "checkout" then Except.ok GitCommand.Checkout
  else if firstToken command = "cherry-pick" then Except.ok GitCommand.CherryPick
  else if firstToken command = "clean" then Except.ok GitCommand.Clean
  else if firstToken command = "clone" then Except.ok GitCommand.Clone
  else if firstToken command = "commit" then Except.ok GitCommand.Commit
  else if firstToken command = "fetch" then Except.ok GitCommand.Fetch
  else if firstToken command = "filter-branch" then Except.ok GitCommand.FilterBranch
  else if firstToken command = "fsck" then Except.ok GitCommand.Fsck
  else if firstToken command = "gc" then Except.ok GitCommand.Gc
  else if firstToken command = "init" then Except.ok GitCommand.Init
  else if firstToken command = "merge" then Except.ok GitCommand.Merge
  else if firstToken command = "mv" then Except.ok GitCommand.Mv
  else if firstToken command = "pull" then Except.ok GitCommand.Pull
  else if firstToken command = "push" then Except.ok GitCommand.Push
  else if firstToken command = "rebase" then Except.ok GitCommand.Rebase
  else if firstToken command = "remote" then Except.ok GitCommand.Remote
  else if firstToken command = "reset" then Except.ok GitCommand.Reset
  else if firstToken command = "restore" then Except.ok GitCommand.Restore
  else if firstToken command = "rm" then Except.ok GitCommand.Rm
  else if firstToken command = "stash" then Except.ok GitCommand.Stash
  else if firstToken command = "submodule" then Except.ok GitCommand.Submodule
  else if firstToken command = "switch" then Except.ok GitCommand.Switch
  else if firstToken command = "tag" then Except.ok GitCommand.Tag
  else if firstToken command = "update-index" then Except.ok GitCommand.UpdateIndex
  else if firstToken command = "update-ref" then Except.ok GitCommand.UpdateRef
  else if firstToken command = "write-tree" then Except.ok GitCommand.WriteTree
  else Except.error "No command found"

/-- Specification-side lookup table: the same 30-verb table applied to a
single token, used to state theorems about the classifier. -/
def verbTable (t : String) : Option GitCommand :=
  if t = "add" then some GitCommand.Add
  else if t = "apply" then some GitCommand.Apply
  else if t = "bisect" then some GitCommand.Bisect
  else if t = "branch" then some GitCommand.Branch
  else if t = "checkout" then some GitCommand.Checkout
  else if t = "cherry-pick" then some GitCommand.CherryPick
  else if t = "clean" then some GitCommand.Clean
  else if t = "clone" then some GitCommand.Clone
  else if t = "commit" then some GitCommand.Commit
  else if t = "fetch" then some GitCommand.Fetch
  else if t = "filter-branch" then some GitCommand.FilterBranch
  else if t = "fsck" then some GitCommand.Fsck
  else if t = "gc" then some GitCommand.Gc
  else if t = "init" then some GitCommand.Init
  else if t = "merge" then some GitCommand.Merge
  else if t = "mv" then some GitCommand.Mv
  else if t = "pull" then some GitCommand.Pull
  else if t = "push" then some GitCommand.Push
  else if t = "rebase" then some GitCommand.Rebase
  else if t = "remote" then some GitCommand.Remote
  else if t = "reset" then some GitCommand.Reset
  else if t = "restore" then some GitCommand.Restore
  else if t = "rm" then some GitCommand.Rm
  else if t = "stash" then some GitCommand.Stash
  else if t = "submodule" then some GitCommand.Submodule
  else if t = "switch" then some GitCommand.Switch
  else if t = "tag" then some GitCommand.Tag
  else if t = "update-index" then some GitCommand.UpdateIndex
  else if t = "update-ref" then some GitCommand.UpdateRef
  else if t = "write-tree" then some GitCommand.WriteTree
  else none

/-- The thirty verbs accepted by `command_is_mutate`, in source order. -/
def mutatingVerbs : List String :=
  ["add", "apply", "bisect", "branch", "checkout", "cherry-pick", "clean",
   "clone", "commit", "fetch", "filter-branch", "fsck", "gc", "init",
   "merge", "mv", "pull", "push", "rebase", "remote", "reset", "restore",
   "rm", "stash", "submodule", "switch", "tag", "update-index",
   "update-ref", "write-tree"]

/-- Embeds the accumulation loop of `process_affected_files` (lines 222-230):
start from an empty vector, push each token for which the filesystem check
succeeds. -/
def collectExisting (fsExists : String → Bool) : List String → List String → List String
  | [], acc => acc
  | t :: ts, acc =>
    if fsExists t then collectExisting fsExists ts (acc ++ [t])
    else collectExisting fsExists ts acc

/-- Embeds `GitCommandState::process_affected_files` (lines 222-230): scan
the space-separated tokens of the command, keeping those for which
`Path::new(tok).exists()` — modelled by the oracle `fsExists` — holds. The
Rust function has a `Result` signature but always returns `Ok`. -/
def GitCommandState.process_affected_files (fsExists : String → Bool)
    (command : String) : Except String (List String) :=
  Except.ok (collectExisting fsExists (splitCmd command) [])

/-- Whether a byte is a UTF-8 continuation byte (0x80-0xBF). -/
def isCont (b : Nat) : Prop := 0x80 ≤ b ∧ b < 0xC0

instance instDecidableIsCont (b : Nat) : Decidable (isCont b) := by
  unfold isCont
  infer_instance

/-- Validity check applied when a multi-byte sequence of total length `len`
completes with scalar value `cp`: three-byte sequences must not be overlong
(below 0x800) nor encode surrogates; four-byte sequences must not be
overlong (below 0x10000) nor exceed 0x10FFFF. Two-byte sequences need no
check because the overlong leads 0xC0/0xC1 are rejected up front. -/
def utf8SeqInvalid (len cp : Nat) : Prop :=
  (len = 3 ∧ (cp < 0x800 ∨ (0xD800 ≤ cp ∧ cp < 0xE000)))
  ∨ (len = 4 ∧ (cp < 0x10000 ∨ 0x10FFFF < cp))

instance instDecidableUtf8SeqInvalid (len cp : Nat) :
    Decidable (utf8SeqInvalid len cp) := by
  unfold utf8SeqInvalid
  infer_instance

/-- Worker of the UTF-8 decoder. The first argument is the number of
continuation bytes still expected (0 when at a lead byte), the second the
scalar value accumulated so far, the third the total byte length of the
current sequence (2, 3 or 4). Lead bytes 0x80-0xC1 (stray continuation or
overlong lead) and 0xF5-0xFF are rejected; when a sequence completes, the
length-dependent validity check `utf8SeqInvalid` is applied. -/
def utf8DecodeAux : Nat → Nat → Nat → List Nat → Option (List Nat)
  | 0, _, _, [] => some []
  | 0, _, _, b :: rest =>
    if b < 0x80 then (utf8DecodeAux 0 0 0 rest).map (fun cps => b :: cps)
    else if b < 0xC2 then none
    else if b < 0xE0 then utf8DecodeAux 1 (b - 0xC0) 2 rest
    else if b < 0xF0 then utf8DecodeAux 2 (b - 0xE0) 3 rest
    else if b < 0xF5 then utf8DecodeAux 3 (b - 0xF0) 4 rest
    else none
  | _ + 1, _, _, [] => none
  | k + 1, acc, len, b :: rest =>
    if isCont b then
      if k = 0 then
        if utf8SeqInvalid len (acc * 64 + (b - 0x80)) then none
        else (utf8DecodeAux 0 0 0 rest).map (fun cps => (acc * 64 + (b - 0x80)) :: cps)
      else utf8DecodeAux k (acc * 64 + (b - 0x80)) len rest
    else none

/-- Models the strict UTF-8 validation and decoding performed by Rust's
`String::from_utf8` on a byte list (bytes as `Nat` below 256): rejects
stray continuation bytes, the overlong lead bytes 0xC0/0xC1, surrogate
codepoints, codepoints above 0x10FFFF, and lead bytes 0xF5 and above.
Returns the list of decoded scalar values. -/
def utf8Decode (l : List Nat) : Option (List Nat) :=
  utf8DecodeAux 0 0 0 l

/-- Decoded stdout as a `String`: `utf8Decode` followed by building a string
from the codepoints (all codepoints produced by `utf8Decode` are valid
scalar values). `none` models the `unwrap` panic of `String::from_utf8(...)`.
-/
def decodeUtf8String (bytes : List Nat) : Option String :=
  (utf8Decode bytes).map (fun cps => String.mk (cps.map Char.ofNat))

/-- The UTF-8 encoding of one scalar value, used to state round-trip
properties of the decoder. -/
def utf8EncodeChar (cp : Nat) : List Nat :=
  if cp < 0x80 then [cp]
  else if cp < 0x800 then [0xC0 + cp / 64, 0x80 + cp % 64]
  else if cp < 0x10000 then
    [0xE0 + cp / 4096, 0x80 + (cp / 64) % 64, 0x80 + cp % 64]
  else
    [0xF0 + cp / 262144, 0x80 + (cp / 4096) % 64, 0x80 + (cp / 64) % 64, 0x80 + cp % 64]

/-- The UTF-8 byte sequence a tool would emit for the string `s`. -/
def encodeUtf8String (s : String) : List Nat :=
  s.data.flatMap (fun c => utf8EncodeChar c.toNat)

/-- Embeds `get_current_branch` (lines 176-182): spawn
`git rev-parse --abbrev-ref HEAD`, capture its stdout bytes (the parameter),
and decode them with `String::from_utf8(...).unwrap()`; `none` models the
panic on invalid UTF-8. No trimming is applied. -/
def get_current_branch (stdoutBytes : List Nat) : Option String :=
  decodeUtf8String stdoutBytes

/-- Embeds `get_current_commit` (lines 168-174): spawn `git rev-parse HEAD`,
capture its stdout bytes, decode with `String::from_utf8(...).unwrap()`. -/
def get_current_commit (stdoutBytes : List Nat) : Option String :=
  decodeUtf8String stdoutBytes

/-- Embeds `GitCommandState::new` (lines 232-242). The filesystem oracle and
the two introspection stdouts are parameters; `none` models a panic in
either `get_current_branch` or `get_current_commit`. Classification errors
degrade to `InvalidCommand` via `unwrap_or_else`, extraction errors (which
cannot occur) would degrade to the empty list. -/
def GitCommandState.new (fsExists : String → Bool)
    (branchStdout commitStdout : List Nat) (command : String) :
    Option GitCommandState :=
  let git_command :=
    match GitCommandState.extract_git_command command with
    | Except.ok k => k
    | Except.error _ => GitCommand.InvalidCommand
  match get_current_branch branchStdout, get_current_commit commitStdout with
  | some b, some c =>
    some { command := git_command,
           files_affected :=
             match GitCommandState.process_affected_files fsExists command with
             | Except.ok fs => fs
             | Except.error _ => [],
           current_branch := b,
           current_commit := c }
  | _, _ => none

/-- Models serde_json string escaping for one character: escape the quote,
the backslash, and control characters below 0x20 (short escapes for
backspace, form feed, newline, carriage return, tab; a four-hex-digit
escape otherwise, with lowercase hex digits). -/
def jsonEscapeChar (c : Char) : List Char :=
  if c = '"' then ['\\', '"']
  else if c = '\\' then ['\\', '\\']
  else if c.toNat < 0x20 then
    if c = '\x08' then ['\\', 'b']
    else if c = '\x0c' then ['\\', 'f']
    else if c = '\n' then ['\\', 'n']
    else if c = '\r' then ['\\', 'r']
    else if c = '\t' then ['\\', 't']
    else
      ['\\', 'u', '0', '0',
       (Nat.digitChar (c.toNat / 16)), (Nat.digitChar (c.toNat % 16))]
  else [c]

/-- Models serde_json serialization of a string value (quoted, escaped). -/
def jsonString (s : String) : String :=
  "\"" ++ String.mk (s.data.flatMap jsonEscapeChar) ++ "\""

/-- Models serde_json serialization of a `Vec<String>` value. -/
def jsonStringList (l : List String) : String :=
  "[" ++ String.intercalate "," (l.map jsonString) ++ "]"

/-- The serde name of each `GitCommand` variant under
`rename_all = "snake_case"`. -/
def gitCommandSerdeName : GitCommand → String
  | GitCommand.Add => "add"
  | GitCommand.Apply => "apply"
  | GitCommand.Bisect => "bisect"
  | GitCommand.Branch => "branch"
  | GitCommand.Checkout => "checkout"
  | GitCommand.CherryPick => "cherry_pick"
  | GitCommand.Clean => "clean"
  | GitCommand.Clone => "clone"
  | GitCommand.Commit => "commit"
  | GitCommand.Fetch => "fetch"
  | GitCommand.FilterBranch => "filter_branch"
  | GitCommand.Fsck => "fsck"
  | GitCommand.Gc => "gc"
  | GitCommand.Init => "init"
  | GitCommand.Merge => "merge"
  | GitCommand.Mv => "mv"
  | GitCommand.Pull => "pull"
  | GitCommand.Push => "push"
  | GitCommand.Rebase => "rebase"
  | GitCommand.Remote => "remote"
  | GitCommand.Reset => "reset"
  | GitCommand.Restore => "restore"
  | GitCommand.Rm => "rm"
  | GitCommand.Stash => "stash"
  | GitCommand.Submodule => "submodule"
  | GitCommand.Switch => "switch"
  | GitCommand.Tag => "tag"
  | GitCommand.UpdateIndex => "update_index"
  | GitCommand.UpdateRef => "update_ref"
  | GitCommand.WriteTree => "write_tree"
  | GitCommand.InvalidCommand => "invalid_command"

/-- Models `serde_json::to_string(&GitCommandState)`: compact JSON object
with the fields in declaration order; a unit enum variant serializes as its
snake_case name as a JSON string. -/
def serializeGitCommandState (st : GitCommandState) : String :=
  "\x7b\"command\":" ++ jsonString (gitCommandSerdeName st.command)
    ++ ",\"files_affected\":" ++ jsonStringList st.files_affected
    ++ ",\"current_branch\":" ++ jsonString st.current_branch
    ++ ",\"current_commit\":" ++ jsonString st.current_commit
    ++ "\x7d"

/-- One row of the `git_command_history` table: columns `id`, `command`,
`created_at`. -/
structure HistoryRow where
  id : String
  command : String
  created_at : String
deriving DecidableEq, Repr

/-- Embeds `add_command_history` (lines 72-86): build a `GitCommandState`
from the raw command and insert one row whose `command` column holds the
serde_json serialization of that state. The UUID (`id`) and the timestamp
(`createdAt`) are parameters; `none` models a panic inside
`GitCommandState::new`. -/
def add_command_history (id createdAt : String) (fsExists : String → Bool)
    (branchStdout commitStdout : List Nat) (command : String) :
    Option HistoryRow :=
  (GitCommandState.new fsExists branchStdout commitStdout command).map
    (fun st => { id := id,
                 command := serializeGitCommandState st,
                 created_at := createdAt })

/-- Embeds the row filter of the `mutate-actions` subcommand (lines 38-51):
keep exactly the rows whose stored `command` column satisfies
`command_is_mutate` (rows failing it are skipped with `continue`). -/
def mutateActions (rows : List HistoryRow) : List HistoryRow :=
  rows.filter (fun r => command_is_mutate r.command)

/-- The line printed for one matching row:
`println!("\x7b\x7d \x7b\x7d \x7b\x7d", id, command, created_at)`. -/
def mutateActionsLine (r : HistoryRow) : String :=
  r.id ++ " " ++ r.command ++ " " ++ r.created_at

/-- The full printed output of `mutate-actions`: one line per matching row,
in table-scan order. -/
def mutateActionsOutput (rows : List HistoryRow) : List String :=
  (mutateActions rows).map mutateActionsLine

/-! ## Tokenizer lemmas -/

theorem splitSpaces_ne_nil (l : List Char) : splitSpaces l ≠ [] := by
  cases l with
  | nil => simp [splitSpaces]
  | cons c cs =>
    unfold splitSpaces
    split
    · simp
    · cases h : splitSpaces cs with
      | nil => simp
      | cons t ts => simp

theorem splitSpaces_no_space (l : List Char) (h : ' ' ∉ l) :
    splitSpaces l = [l] := by
  induction l with
  | nil => rfl
  | cons c cs ih =>
    have hc : c ≠ ' ' := fun hc => h (hc ▸ List.mem_cons_self c cs)
    have hcs : ' ' ∉ cs := fun hm => h (List.mem_cons_of_mem c hm)
    unfold splitSpaces
    rw [if_neg hc, ih hcs]

theorem splitSpaces_append (a b : List Char) (h : ' ' ∉ a) :
    splitSpaces (a ++ ' ' :: b) = a :: splitSpaces b := by
  induction a with
  | nil => simp [splitSpaces]
  | cons c cs ih =>
    have hc : c ≠ ' ' := fun hc => h (hc ▸ List.mem_cons_self c cs)
    have hcs : ' ' ∉ cs := fun hm => h (List.mem_cons_of_mem c hm)
    rw [List.cons_append]
    simp only [splitSpaces]
    rw [if_neg hc, ih hcs]

theorem splitCmd_no_space (s : String) (h : ' ' ∉ s.data) :
    splitCmd s = [s] := by
  unfold splitCmd
  rw [splitSpaces_no_space s.data h]
  rfl

theorem firstToken_no_space (s : String) (h : ' ' ∉ s.data) :
    firstToken s = s := by
  unfold firstToken
  rw [splitCmd_no_space s h]
  rfl

theorem firstToken_append (V S : String) (h : ' ' ∉ V.data) :
    firstToken (V ++ " " ++ S) = V := by
  unfold firstToken splitCmd
  have hdata : (V ++ " " ++ S).data = V.data ++ ' ' :: S.data := by
    rw [String.data_append, String.data_append]
    show V.data ++ [' '] ++ S.data = _
    simp
  rw [hdata, splitSpaces_append V.data S.data h]
  simp

/-! ## Affected-files lemmas -/

theorem collectExisting_eq_filter (f : String → Bool) (ts acc : List String) :
    collectExisting f ts acc = acc ++ ts.filter f := by
  induction ts generalizing acc with
  | nil => simp [collectExisting]
  | cons t ts ih =>
    unfold collectExisting
    by_cases hf : f t
    · rw [if_pos hf, ih, List.filter_cons_of_pos hf]
      simp
    · rw [if_neg hf, ih, List.filter_cons_of_neg (by simpa using hf)]

theorem process_affected_files_eq_filter (f : String → Bool) (c : String) :
    GitCommandState.process_affected_files f c
      = Except.ok ((splitCmd c).filter f) := by
  unfold GitCommandState.process_affected_files
  rw [collectExisting_eq_filter]
  rfl

/-! ## Verb-table lemmas -/

theorem command_is_mutate_eq_false (s : String)
    (h1 : s ≠ "add") (h2 : s ≠ "apply") (h3 : s ≠ "bisect") (h4 : s ≠ "branch") (h5 : s ≠ "checkout") (h6 : s ≠ "cherry-pick") (h7 : s ≠ "clean") (h8 : s ≠ "clone") (h9 : s ≠ "commit") (h10 : s ≠ "fetch") (h11 : s ≠ "filter-branch") (h12 : s ≠ "fsck") (h13 : s ≠ "gc") (h14 : s ≠ "init") (h15 : s ≠ "merge") (h16 : s ≠ "mv") (h17 : s ≠ "pull") (h18 : s ≠ "push") (h19 : s ≠ "rebase") (h20 : s ≠ "remote") (h21 : s ≠ "reset") (h22 : s ≠ "restore") (h23 : s ≠ "rm") (h24 : s ≠ "stash") (h25 : s ≠ "submodule") (h26 : s ≠ "switch") (h27 : s ≠ "tag") (h28 : s ≠ "update-index") (h29 : s ≠ "update-ref") (h30 : s ≠ "write-tree") :
    command_is_mutate s = false := by
  unfold command_is_mutate
  rw [if_neg h1, if_neg h2, if_neg h3, if_neg h4, if_neg h5, if_neg h6, if_neg h7, if_neg h8, if_neg h9, if_neg h10, if_neg h11, if_neg h12, if_neg h13, if_neg h14, if_neg h15, if_neg h16, if_neg h17, if_neg h18, if_neg h19, if_neg h20, if_neg h21, if_neg h22, if_neg h23, if_neg h24, if_neg h25, if_neg h26, if_neg h27, if_neg h28, if_neg h29, if_neg h30]


theorem mem_mutatingVerbs_iff (s : String) :
    s ∈ mutatingVerbs ↔ s = "add" ∨ s = "apply" ∨ s = "bisect" ∨ s = "branch" ∨ s = "checkout" ∨ s = "cherry-pick" ∨ s = "clean" ∨ s = "clone" ∨ s = "commit" ∨ s = "fetch" ∨ s = "filter-branch" ∨ s = "fsck" ∨ s = "gc" ∨ s = "init" ∨ s = "merge" ∨ s = "mv" ∨ s = "pull" ∨ s = "push" ∨ s = "rebase" ∨ s = "remote" ∨ s = "reset" ∨ s = "restore" ∨ s = "rm" ∨ s = "stash" ∨ s = "submodule" ∨ s = "switch" ∨ s = "tag" ∨ s = "update-index" ∨ s = "update-ref" ∨ s = "write-tree" := by
  simp [mutatingVerbs]


theorem command_is_mutate_of_mem (s : String) (h : s ∈ mutatingVerbs) :
    command_is_mutate s = true := by
  rcases (mem_mutatingVerbs_iff s).mp h with h|h|h|h|h|h|h|h|h|h|h|h|h|h|h|h|h|h|h|h|h|h|h|h|h|h|h|h|h|h <;> subst h <;> decide


theorem command_is_mutate_iff_mem (s : String) :
    command_is_mutate s = true ↔ s ∈ mutatingVerbs := by
  constructor
  · intro h
    by_contra hm
    rw [mem_mutatingVerbs_iff] at hm
    push_neg at hm
    obtain ⟨h1, h2, h3, h4, h5, h6, h7, h8, h9, h10, h11, h12, h13, h14, h15, h16, h17, h18, h19, h20, h21, h22, h23, h24, h25, h26, h27, h28, h29, h30⟩ := hm
    rw [command_is_mutate_eq_false s h1 h2 h3 h4 h5 h6 h7 h8 h9 h10 h11 h12 h13 h14 h15 h16 h17 h18 h19 h20 h21 h22 h23 h24 h25 h26 h27 h28 h29 h30] at h
    exact Bool.noConfusion h
  · exact command_is_mutate_of_mem s

theorem verbTable_eq_none (s : String)
    (h1 : s ≠ "add") (h2 : s ≠ "apply") (h3 : s ≠ "bisect") (h4 : s ≠ "branch") (h5 : s ≠ "checkout") (h6 : s ≠ "cherry-pick") (h7 : s ≠ "clean") (h8 : s ≠ "clone") (h9 : s ≠ "commit") (h10 : s ≠ "fetch") (h11 : s ≠ "filter-branch") (h12 : s ≠ "fsck") (h13 : s ≠ "gc") (h14 : s ≠ "init") (h15 : s ≠ "merge") (h16 : s ≠ "mv") (h17 : s ≠ "pull") (h18 : s ≠ "push") (h19 : s ≠ "rebase") (h20 : s ≠ "remote") (h21 : s ≠ "reset") (h22 : s ≠ "restore") (h23 : s ≠ "rm") (h24 : s ≠ "stash") (h25 : s ≠ "submodule") (h26 : s ≠ "switch") (h27 : s ≠ "tag") (h28 : s ≠ "update-index") (h29 : s ≠ "update-ref") (h30 : s ≠ "write-tree") :
    verbTable s = none := by
  unfold verbTable
  rw [if_neg h1, if_neg h2, if_neg h3, if_neg h4, if_neg h5, if_neg h6, if_neg h7, if_neg h8, if_neg h9, if_neg h10, if_neg h11, if_neg h12, if_neg h13, if_neg h14, if_neg h15, if_neg h16, if_neg h17, if_neg h18, if_neg h19, if_neg h20, if_neg h21, if_neg h22, if_neg h23, if_neg h24, if_neg h25, if_neg h26, if_neg h27, if_neg h28, if_neg h29, if_neg h30]


theorem extract_git_command_eq_error (c : String)
    (h1 : firstToken c ≠ "add") (h2 : firstToken c ≠ "apply") (h3 : firstToken c ≠ "bisect") (h4 : firstToken c ≠ "branch") (h5 : firstToken c ≠ "checkout") (h6 : firstToken c ≠ "cherry-pick") (h7 : firstToken c ≠ "clean") (h8 : firstToken c ≠ "clone") (h9 : firstToken c ≠ "commit") (h10 : firstToken c ≠ "fetch") (h11 : firstToken c ≠ "filter-branch") (h12 : firstToken c ≠ "fsck") (h13 : firstToken c ≠ "gc") (h14 : firstToken c ≠ "init") (h15 : firstToken c ≠ "merge") (h16 : firstToken c ≠ "mv") (h17 : firstToken c ≠ "pull") (h18 : firstToken c ≠ "push") (h19 : firstToken c ≠ "rebase") (h20 : firstToken c ≠ "remote") (h21 : firstToken c ≠ "reset") (h22 : firstToken c ≠ "restore") (h23 : firstToken c ≠ "rm") (h24 : firstToken c ≠ "stash") (h25 : firstToken c ≠ "submodule") (h26 : firstToken c ≠ "switch") (h27 : firstToken c ≠ "tag") (h28 : firstToken c ≠ "update-index") (h29 : firstToken c ≠ "update-ref") (h30 : firstToken c ≠ "write-tree") :
    GitCommandState.extract_git_command c = Except.error "No command found" := by
  unfold GitCommandState.extract_git_command
  rw [if_neg h1, if_neg h2, if_neg h3, if_neg h4, if_neg h5, if_neg h6, if_neg h7, if_neg h8, if_neg h9, if_neg h10, if_neg h11, if_neg h12, if_neg h13, if_neg h14, if_neg h15, if_neg h16, if_neg h17, if_neg h18, if_neg h19, if_neg h20, if_neg h21, if_neg h22, if_neg h23, if_neg h24, if_neg h25, if_neg h26, if_neg h27, if_neg h28, if_neg h29, if_neg h30]


theorem verbTable_isSome_eq_mutate (s : String) :
    (verbTable s).isSome = command_is_mutate s := by
  by_cases hm : s ∈ mutatingVerbs
  · rcases (mem_mutatingVerbs_iff s).mp hm with h|h|h|h|h|h|h|h|h|h|h|h|h|h|h|h|h|h|h|h|h|h|h|h|h|h|h|h|h|h <;> subst h <;> decide
  · rw [mem_mutatingVerbs_iff] at hm
    push_neg at hm
    obtain ⟨h1, h2, h3, h4, h5, h6, h7, h8, h9, h10, h11, h12, h13, h14, h15, h16, h17, h18, h19, h20, h21, h22, h23, h24, h25, h26, h27, h28, h29, h30⟩ := hm
    rw [verbTable_eq_none s h1 h2 h3 h4 h5 h6 h7 h8 h9 h10 h11 h12 h13 h14 h15 h16 h17 h18 h19 h20 h21 h22 h23 h24 h25 h26 h27 h28 h29 h30, command_is_mutate_eq_false s h1 h2 h3 h4 h5 h6 h7 h8 h9 h10 h11 h12 h13 h14 h15 h16 h17 h18 h19 h20 h21 h22 h23 h24 h25 h26 h27 h28 h29 h30]
    rfl


theorem extract_eq_verbTable (c : String) :
    GitCommandState.extract_git_command c
      = match verbTable (firstToken c) with
        | some k => Except.ok k
        | none => Except.error "No command found" := by
  by_cases hm : firstToken c ∈ mutatingVerbs
  · rcases (mem_mutatingVerbs_iff _).mp hm with h|h|h|h|h|h|h|h|h|h|h|h|h|h|h|h|h|h|h|h|h|h|h|h|h|h|h|h|h|h <;>
      · unfold GitCommandState.extract_git_command verbTable
        rw [h]
        rfl
  · rw [mem_mutatingVerbs_iff] at hm
    push_neg at hm
    obtain ⟨h1, h2, h3, h4, h5, h6, h7, h8, h9, h10, h11, h12, h13, h14, h15, h16, h17, h18, h19, h20, h21, h22, h23, h24, h25, h26, h27, h28, h29, h30⟩ := hm
    rw [extract_git_command_eq_error c h1 h2 h3 h4 h5 h6 h7 h8 h9 h10 h11 h12 h13 h14 h15 h16 h17 h18 h19 h20 h21 h22 h23 h24 h25 h26 h27 h28 h29 h30, verbTable_eq_none _ h1 h2 h3 h4 h5 h6 h7 h8 h9 h10 h11 h12 h13 h14 h15 h16 h17 h18 h19 h20 h21 h22 h23 h24 h25 h26 h27 h28 h29 h30]


theorem verbTable_no_space (V : String) (k : GitCommand)
    (hv : verbTable V = some k) : ' ' ∉ V.data := by
  by_cases hm : V ∈ mutatingVerbs
  · rcases (mem_mutatingVerbs_iff V).mp hm with h|h|h|h|h|h|h|h|h|h|h|h|h|h|h|h|h|h|h|h|h|h|h|h|h|h|h|h|h|h <;> subst h <;> decide
  · rw [mem_mutatingVerbs_iff] at hm
    push_neg at hm
    obtain ⟨h1, h2, h3, h4, h5, h6, h7, h8, h9, h10, h11, h12, h13, h14, h15, h16, h17, h18, h19, h20, h21, h22, h23, h24, h25, h26, h27, h28, h29, h30⟩ := hm
    rw [verbTable_eq_none V h1 h2 h3 h4 h5 h6 h7 h8 h9 h10 h11 h12 h13 h14 h15 h16 h17 h18 h19 h20 h21 h22 h23 h24 h25 h26 h27 h28 h29 h30] at hv
    exact Option.noConfusion hv

/-! ## UTF-8 round-trip lemmas -/

theorem char_toNat_valid (c : Char) :
    c.toNat < 0xD800 ∨ (0xDFFF < c.toNat ∧ c.toNat < 0x110000) := c.valid

theorem utf8DecodeAux_encodeChar (cp : Nat)
    (h : cp < 0xD800 ∨ (0xDFFF < cp ∧ cp < 0x110000)) (rest : List Nat) :
    utf8DecodeAux 0 0 0 (utf8EncodeChar cp ++ rest)
      = (utf8DecodeAux 0 0 0 rest).map (fun cps => cp :: cps) := by
  unfold utf8EncodeChar
  by_cases h1 : cp < 0x80
  · rw [if_pos h1]
    simp only [List.cons_append, List.nil_append]
    simp only [utf8DecodeAux]
    rw [if_pos h1]
  · rw [if_neg h1]
    by_cases h2 : cp < 0x800
    · rw [if_pos h2]
      simp only [List.cons_append, List.nil_append]
      simp only [utf8DecodeAux]
      rw [if_neg (by omega), if_neg (by omega), if_pos (by omega : 0xC0 + cp / 64 < 0xE0),
          if_pos (by constructor <;> omega : isCont (0x80 + cp % 64)),
          if_pos trivial,
          if_neg (by
            unfold utf8SeqInvalid
            omega)]
      simp only [show (0xC0 + cp / 64 - 0xC0) * 64 + (0x80 + cp % 64 - 0x80) = cp from by omega]
    · rw [if_neg h2]
      by_cases h3 : cp < 0x10000
      · rw [if_pos h3]
        simp only [List.cons_append, List.nil_append]
        simp only [utf8DecodeAux]
        rw [if_neg (by omega), if_neg (by omega), if_neg (by omega),
            if_pos (by omega : 0xE0 + cp / 4096 < 0xF0),
            if_pos (by constructor <;> omega : isCont (0x80 + cp / 64 % 64)),
            if_neg (by omega : ¬(1 = 0)),
            if_pos (by constructor <;> omega : isCont (0x80 + cp % 64)),
            if_pos trivial,
            if_neg (by
              unfold utf8SeqInvalid
              omega)]
        simp only [show ((0xE0 + cp / 4096 - 0xE0) * 64 + (0x80 + cp / 64 % 64 - 0x80)) * 64
            + (0x80 + cp % 64 - 0x80) = cp from by omega]
      · rw [if_neg h3]
        simp only [List.cons_append, List.nil_append]
        simp only [utf8DecodeAux]
        rw [if_neg (by omega), if_neg (by omega), if_neg (by omega), if_neg (by omega),
            if_pos (by omega : 0xF0 + cp / 262144 < 0xF5),
            if_pos (by constructor <;> omega : isCont (0x80 + cp / 4096 % 64)),
            if_neg (by omega : ¬(2 = 0)),
            if_pos (by constructor <;> omega : isCont (0x80 + cp / 64 % 64)),
            if_neg (by omega : ¬(1 = 0)),
            if_pos (by constructor <;> omega : isCont (0x80 + cp % 64)),
            if_pos trivial,
            if_neg (by
              unfold utf8SeqInvalid
              omega)]
        simp only [show (((0xF0 + cp / 262144 - 0xF0) * 64 + (0x80 + cp / 4096 % 64 - 0x80)) * 64
            + (0x80 + cp / 64 % 64 - 0x80)) * 64 + (0x80 + cp % 64 - 0x80) = cp from by omega]

theorem utf8Decode_encode_flatMap (cs : List Char) :
    utf8Decode (cs.flatMap (fun c => utf8EncodeChar c.toNat)) = some (cs.map Char.toNat) := by
  unfold utf8Decode
  induction cs with
  | nil => rfl
  | cons c cs ih =>
    rw [List.flatMap_cons, utf8DecodeAux_encodeChar c.toNat (char_toNat_valid c), ih]
    rfl

theorem decodeUtf8String_encode (s : String) :
    decodeUtf8String (encodeUtf8String s) = some s := by
  unfold decodeUtf8String encodeUtf8String
  rw [utf8Decode_encode_flatMap s.data]
  simp only [Option.map_some']
  rw [List.map_map]
  have hcomp : (Char.ofNat ∘ Char.toNat) = fun c : Char => c := by
    funext c
    exact Char.ofNat_toNat c
  rw [hcomp, List.map_id']

/-! ## Builder and store lemmas -/

/-- Trimming as the specification describes it (surrounding whitespace
removed), stated from the spec's words for comparison with the code's
behaviour. -/
def trimSpec (s : String) : String :=
  String.mk (((s.data.dropWhile Char.isWhitespace).reverse.dropWhile Char.isWhitespace).reverse)

theorem new_eq_some (f : String → Bool) (bO cO : List Nat) (c b cm : String)
    (hb : decodeUtf8String bO = some b) (hc : decodeUtf8String cO = some cm) :
    GitCommandState.new f bO cO c = some
      { command := match GitCommandState.extract_git_command c with
                   | Except.ok k => k
                   | Except.error _ => GitCommand.InvalidCommand,
        files_affected := (splitCmd c).filter f,
        current_branch := b,
        current_commit := cm } := by
  unfold GitCommandState.new get_current_branch get_current_commit
  rw [hb, hc, process_affected_files_eq_filter]

theorem new_isSome (f : String → Bool) (bO cO : List Nat) (c : String) :
    (GitCommandState.new f bO cO c).isSome
      = ((decodeUtf8String bO).isSome && (decodeUtf8String cO).isSome) := by
  unfold GitCommandState.new get_current_branch get_current_commit
  cases decodeUtf8String bO <;> cases decodeUtf8String cO <;> rfl

theorem mutateActions_idem (rows : List HistoryRow) :
    mutateActions (mutateActions rows) = mutateActions rows := by
  unfold mutateActions
  rw [List.filter_filter]
  simp

theorem mutateActions_all_mutating (rows : List HistoryRow)
    (h : ∀ r ∈ rows, command_is_mutate r.command = true) :
    mutateActions rows = rows := by
  unfold mutateActions
  exact List.filter_eq_self.mpr h

theorem serialize_head (st : GitCommandState) :
    (serializeGitCommandState st).data.head? = some '\x7b' := by
  unfold serializeGitCommandState
  simp only [String.data_append, List.append_assoc]
  rfl

theorem command_is_mutate_serialize (st : GitCommandState) :
    command_is_mutate (serializeGitCommandState st) = false := by
  cases hb : command_is_mutate (serializeGitCommandState st) with
  | false => rfl
  | true =>
    exfalso
    have hmem := (command_is_mutate_iff_mem _).mp hb
    have hhead := serialize_head st
    rcases (mem_mutatingVerbs_iff _).mp hmem with
      h|h|h|h|h|h|h|h|h|h|h|h|h|h|h|h|h|h|h|h|h|h|h|h|h|h|h|h|h|h <;>
      rw [h] at hhead <;> exact absurd hhead (by decide)

theorem command_is_mutate_of_space (s : String) (hs : ' ' ∈ s.data) :
    command_is_mutate s = false := by
  cases hb : command_is_mutate s with
  | false => rfl
  | true =>
    exfalso
    have hmem := (command_is_mutate_iff_mem _).mp hb
    have hnospace : ∀ v ∈ mutatingVerbs, ' ' ∉ v.data := by decide
    exact hnospace s hmem hs

theorem extract_isOk_iff_mutate (V : String) (hV : ' ' ∉ V.data) :
    (∃ k, GitCommandState.extract_git_command V = Except.ok k)
      ↔ command_is_mutate V = true := by
  rw [extract_eq_verbTable, firstToken_no_space V hV]
  have hiff := verbTable_isSome_eq_mutate V
  cases hv : verbTable V with
  | none =>
    rw [hv] at hiff
    simp only [Option.isSome_none] at hiff
    simp [← hiff]
  | some k =>
    rw [hv] at hiff
    simp only [Option.isSome_some] at hiff
    simp [← hiff]

/-! ## Claim theorems -/

/-- C1: the spec claims the mutate-actions query path returns exactly the
records whose command_kind is mutating, and in particular that a record
built from the invocation "push origin main" (command_kind = Push) is
included. On the code this fails: `add_command_history` stores the
serde_json serialization of the `GitCommandState` in the `command` column,
and the mutate-actions loop filters rows by exact whole-string comparison
of that column against bare verbs, so the push record (and every record the
program itself stores) is excluded. This theorem evaluates the pipeline at
the failing input: the builder classifies the invocation as Push, yet the
stored row is filtered out and nothing is printed. -/
theorem C1_push_record_excluded_from_mutate_actions :
    (GitCommandState.new (fun _ => false) [109, 97, 105, 110, 10] [97, 98, 99, 10]
        "push origin main").map GitCommandState.command = some GitCommand.Push
    ∧ add_command_history "id0" "2024-01-01 00:00:00.0 +00:00:00" (fun _ => false)
        [109, 97, 105, 110, 10] [97, 98, 99, 10] "push origin main"
      = some { id := "id0",
               command := "\x7b\"command\":\"push\",\"files_affected\":[],\"current_branch\":\"main\\n\",\"current_commit\":\"abc\\n\"\x7d",
               created_at := "2024-01-01 00:00:00.0 +00:00:00" }
    ∧ command_is_mutate
        "\x7b\"command\":\"push\",\"files_affected\":[],\"current_branch\":\"main\\n\",\"current_commit\":\"abc\\n\"\x7d" = false
    ∧ mutateActionsOutput
        [{ id := "id0",
           command := "\x7b\"command\":\"push\",\"files_affected\":[],\"current_branch\":\"main\\n\",\"current_commit\":\"abc\\n\"\x7d",
           created_at := "2024-01-01 00:00:00.0 +00:00:00" }] = [] := by
  refine ⟨by decide, by decide, by decide, by decide⟩

/-- C2: the spec claims the line printed by mutate-actions is
"id raw_command created_at" with the middle field equal to the invocation
string as typed (for example "commit -m test"). On the code the `command`
column holds the serde_json serialization of the `GitCommandState`, not the
raw invocation, so the displayed middle field is the JSON blob: the claim
fails on the code. This theorem evaluates the pipeline at the failing
input. -/
theorem C2_displayed_command_is_json_not_raw :
    add_command_history "id1" "t1" (fun _ => false)
        [109, 97, 105, 110, 10] [97, 98, 99, 10] "commit -m test"
      = some { id := "id1",
               command := "\x7b\"command\":\"commit\",\"files_affected\":[],\"current_branch\":\"main\\n\",\"current_commit\":\"abc\\n\"\x7d",
               created_at := "t1" }
    ∧ ("\x7b\"command\":\"commit\",\"files_affected\":[],\"current_branch\":\"main\\n\",\"current_commit\":\"abc\\n\"\x7d" : String)
        ≠ "commit -m test"
    ∧ mutateActionsLine
        { id := "id1",
          command := "\x7b\"command\":\"commit\",\"files_affected\":[],\"current_branch\":\"main\\n\",\"current_commit\":\"abc\\n\"\x7d",
          created_at := "t1" }
        ≠ "id1 commit -m test t1" := by
  refine ⟨by decide, by decide, by decide⟩

/-- C3: the classifier is total: prefixing any known verb V of the table to
" " plus any suffix yields the CommandKind of V; any command whose first
token is empty or outside the table (including "") gives a record whose
command_kind is the catch-all InvalidCommand; and classification never
makes record building fail (whether the builder completes does not depend
on the command string at all). -/
theorem C3_classifier_total :
    (∀ V S : String, ∀ k : GitCommand, verbTable V = some k →
        GitCommandState.extract_git_command (V ++ " " ++ S) = Except.ok k)
    ∧ (∀ c : String, ∀ f : String → Bool, ∀ bO cO : List Nat, ∀ st : GitCommandState,
        verbTable (firstToken c) = none →
        GitCommandState.new f bO cO c = some st →
        st.command = GitCommand.InvalidCommand)
    ∧ verbTable (firstToken "") = none
    ∧ (∀ c₁ c₂ : String, ∀ f : String → Bool, ∀ bO cO : List Nat,
        (GitCommandState.new f bO cO c₁).isSome = (GitCommandState.new f bO cO c₂).isSome) := by
  refine ⟨?_, ?_, by decide, ?_⟩
  · intro V S k hv
    rw [extract_eq_verbTable, firstToken_append V S (verbTable_no_space V k hv), hv]
  · intro c f bO cO st hnone hnew
    unfold GitCommandState.new get_current_branch get_current_commit at hnew
    rw [extract_eq_verbTable, hnone] at hnew
    cases hb : decodeUtf8String bO <;> cases hc : decodeUtf8String cO <;>
      rw [hb, hc] at hnew <;> simp at hnew
    rw [← hnew]
  · intro c₁ c₂ f bO cO
    rw [new_isSome, new_isSome]

/-- C3 witness: the classifier facts instantiated at the verb "push" with
suffix "origin main". -/
theorem C3_witness :
    GitCommandState.extract_git_command ("push" ++ " " ++ "origin main")
      = Except.ok GitCommand.Push :=
  C3_classifier_total.1 "push" "origin main" GitCommand.Push (by decide)

theorem count_filter_eq (l : List String) (p : String → Bool) (a : String) :
    (l.filter p).count a = if p a then l.count a else 0 := by
  by_cases h : p a = true
  · rw [if_pos h, List.count_filter h]
  · rw [if_neg h]
    exact List.count_eq_zero.mpr (fun hm => h ((List.mem_filter.mp hm).2))

/-- C4: the affected-files extractor returns, in original token order,
exactly the tokens for which the filesystem-existence check succeeds: its
output is the filter of the token list by the existence oracle, hence an
order-preserving subsequence; tokens are kept verbatim, tokens failing the
check never appear, and duplicates are kept (the multiplicity of a passing
token equals its multiplicity among the tokens). -/
theorem C4_affected_files_exact :
    ∀ (f : String → Bool) (c : String) (out : List String),
      GitCommandState.process_affected_files f c = Except.ok out →
      out = (splitCmd c).filter f
      ∧ out.Sublist (splitCmd c)
      ∧ (∀ t, out.count t = if f t then (splitCmd c).count t else 0)
      ∧ (∀ t, t ∈ out → f t = true) := by
  intro f c out h
  rw [process_affected_files_eq_filter] at h
  injection h with h
  refine ⟨h.symm, ?_, ?_, ?_⟩
  · rw [← h]
    exact List.filter_sublist _
  · intro t
    rw [← h, count_filter_eq]
  · intro t ht
    rw [← h] at ht
    exact (List.mem_filter.mp ht).2

/-- C4 witness: the extractor facts instantiated at the invocation
"add README.md" with a filesystem on which exactly "README.md" exists. -/
theorem C4_witness :
    (["README.md"] : List String)
      = (splitCmd "add README.md").filter (fun t => t == "README.md") :=
  (C4_affected_files_exact (fun t => t == "README.md") "add README.md"
    ["README.md"] (by rfl)).1

/-- C5 counterexample: the state readers do not trim. A branch query whose
stdout is the bytes of "main\x5cn" is recorded as "main\x5cn", trailing
newline included, whereas the claim requires the trimmed string "main". -/
theorem C5_counterexample_no_trim :
    get_current_branch [109, 97, 105, 110, 10] = some "main\n"
    ∧ get_current_commit [97, 98, 99, 10] = some "abc\n"
    ∧ trimSpec "main\n" = "main"
    ∧ ("main\n" : String) ≠ "main" := by
  refine ⟨by decide, by decide, by decide, by decide⟩

/-- C5 amended: both repository-state queries record the captured stdout
decoded as UTF-8 verbatim; surrounding whitespace (such as the trailing
newline git emits) is not removed. -/
theorem C5_state_reader_verbatim :
    (∀ s : String, get_current_branch (encodeUtf8String s) = some s
        ∧ get_current_commit (encodeUtf8String s) = some s)
    ∧ (get_current_branch [109, 97, 105, 110, 10] = some "main\n"
        ∧ trimSpec "main\n" ≠ "main\n") := by
  refine ⟨fun s => ⟨decodeUtf8String_encode s, decodeUtf8String_encode s⟩, by decide, by decide⟩

/-- C6 counterexample: tokenization is not by general whitespace. The
command "add\x5ctREADME.md" has first whitespace-separated token "add", so
under the claim it would classify as Add; the code splits on the space
character only, leaves the tab-joined string as one token, and classifies
the record as InvalidCommand. -/
theorem C6_counterexample_tab_not_delimiter :
    GitCommandState.extract_git_command "add\tREADME.md"
      = Except.error "No command found"
    ∧ (GitCommandState.new (fun _ => false) [109, 97, 105, 110, 10] [97, 98, 99, 10]
        "add\tREADME.md").map GitCommandState.command = some GitCommand.InvalidCommand
    ∧ GitCommand.InvalidCommand ≠ GitCommand.Add
    ∧ splitCmd "add\tREADME.md" = ["add\tREADME.md"] := by
  refine ⟨by rfl, by decide, by decide, by decide⟩

/-- C6 amended: tokenization is by the single space character U+0020: the
classifier examines the first space-separated token (a space does delimit,
a tab does not), and the affected-files extractor scans exactly the
space-separated tokens of the full string. -/
theorem C6_amended_space_tokenization :
    (∀ c : String, GitCommandState.extract_git_command c
        = match verbTable (firstToken c) with
          | some k => Except.ok k
          | none => Except.error "No command found")
    ∧ (∀ (f : String → Bool) (c : String),
        GitCommandState.process_affected_files f c = Except.ok ((splitCmd c).filter f))
    ∧ (∀ V S : String, ' ' ∉ V.data → firstToken (V ++ " " ++ S) = V)
    ∧ firstToken "add\tREADME.md" = "add\tREADME.md" := by
  refine ⟨extract_eq_verbTable, process_affected_files_eq_filter, ?_, by decide⟩
  intro V S h
  exact firstToken_append V S h

/-- C6 witness: a space does delimit the first token. -/
theorem C6_witness : firstToken ("push" ++ " " ++ "origin main") = "push" :=
  C6_amended_space_tokenization.2.2.1 "push" "origin main" (by decide)

/-- C7 counterexample: the builder is not total over arbitrary tool output.
If the branch introspection emits the single byte 0xFF (not valid UTF-8),
`String::from_utf8(...).unwrap()` panics and no record is built, whereas
the claim requires the builder to complete for arbitrary output bytes. -/
theorem C7_counterexample_invalid_utf8_panics :
    utf8Decode [255] = none
    ∧ get_current_branch [255] = none
    ∧ GitCommandState.new (fun _ => false) [255] [97, 98, 99, 10] "push origin main" = none
    ∧ add_command_history "id2" "t2" (fun _ => false) [255] [97, 98, 99, 10]
        "push origin main" = none := by
  refine ⟨by decide, by decide, by decide, by decide⟩

/-- C7 amended: the builder completes exactly when both introspection
stdouts decode as UTF-8, and then it completes for every command string and
every filesystem oracle: classification failure degrades to InvalidCommand,
extraction always succeeds (the affected files are the filtered tokens),
and the state strings are stored as decoded. -/
theorem C7_builder_totality :
    (∀ (f : String → Bool) (bO cO : List Nat) (c b cm : String),
        decodeUtf8String bO = some b → decodeUtf8String cO = some cm →
        GitCommandState.new f bO cO c = some
          { command := match GitCommandState.extract_git_command c with
                       | Except.ok k => k
                       | Except.error _ => GitCommand.InvalidCommand,
            files_affected := (splitCmd c).filter f,
            current_branch := b,
            current_commit := cm })
    ∧ (∀ (f : String → Bool) (bO cO : List Nat) (c : String),
        (GitCommandState.new f bO cO c).isSome
          = ((decodeUtf8String bO).isSome && (decodeUtf8String cO).isSome)) :=
  ⟨fun f bO cO c b cm hb hc => new_eq_some f bO cO c b cm hb hc, new_isSome⟩

/-- C7 witness: the builder totality instantiated at "push origin main"
with valid UTF-8 introspection outputs. -/
theorem C7_witness :
    GitCommandState.new (fun _ => false) [109, 97, 105, 110, 10] [97, 98, 99, 10]
        "push origin main"
      = some { command := match GitCommandState.extract_git_command "push origin main" with
                          | Except.ok k => k
                          | Except.error _ => GitCommand.InvalidCommand,
               files_affected := (splitCmd "push origin main").filter (fun _ => false),
               current_branch := "main\n",
               current_commit := "abc\n" } :=
  C7_builder_totality.1 (fun _ => false) [109, 97, 105, 110, 10] [97, 98, 99, 10]
    "push origin main" "main\n" "abc\n" (by decide) (by decide)

/-- C8: the mutate-actions row filter is idempotent: filtering its own
output returns it unchanged, and filtering a sequence in which every row
already satisfies the mutation predicate is the identity. -/
theorem C8_mutate_filter_idempotent :
    (∀ rows : List HistoryRow, mutateActions (mutateActions rows) = mutateActions rows)
    ∧ (∀ rows : List HistoryRow,
        (∀ r ∈ rows, command_is_mutate r.command = true) → mutateActions rows = rows) :=
  ⟨mutateActions_idem, mutateActions_all_mutating⟩

/-- C8 witness: idempotence and the all-mutating identity at a concrete
two-row table. -/
theorem C8_witness :
    mutateActions [{ id := "a", command := "add", created_at := "t" },
                   { id := "b", command := "push", created_at := "u" }]
      = [{ id := "a", command := "add", created_at := "t" },
         { id := "b", command := "push", created_at := "u" }] :=
  C8_mutate_filter_idempotent.2
    [{ id := "a", command := "add", created_at := "t" },
     { id := "b", command := "push", created_at := "u" }] (by decide)

/-- C9: the mutation predicate is exact whole-string equality against the
thirty bare verbs: it returns true exactly on the members of that list; any
string containing a space (such as "commit -m test") and any serde_json
serialization of a record state (which starts with a brace) yields false. -/
theorem C9_mutate_exact_equality :
    (∀ s : String, command_is_mutate s = true ↔ s ∈ mutatingVerbs)
    ∧ (∀ s : String, ' ' ∈ s.data → command_is_mutate s = false)
    ∧ command_is_mutate "commit -m test" = false
    ∧ (∀ st : GitCommandState, command_is_mutate (serializeGitCommandState st) = false) :=
  ⟨command_is_mutate_iff_mem, command_is_mutate_of_space, by decide,
   command_is_mutate_serialize⟩

/-- C9 witness: the space rule applied to the concrete string
"commit -m test". -/
theorem C9_witness : command_is_mutate "commit -m test" = false :=
  C9_mutate_exact_equality.2.1 "commit -m test" (by decide)

/-- C10: the classifier's verb table and the mutating-verb table coincide:
a token is in the lookup table exactly when the mutation predicate accepts
it, a space-free string classifies to a known kind exactly when it is a
mutating verb, and the read-only git verbs log, status, diff and show are
all outside the table (they classify to the catch-all). -/
theorem C10_tables_coincide :
    (∀ t : String, (verbTable t).isSome = command_is_mutate t)
    ∧ (∀ V : String, ' ' ∉ V.data →
        ((∃ k, GitCommandState.extract_git_command V = Except.ok k)
          ↔ command_is_mutate V = true))
    ∧ GitCommandState.extract_git_command "log" = Except.error "No command found"
    ∧ GitCommandState.extract_git_command "status" = Except.error "No command found"
    ∧ GitCommandState.extract_git_command "diff" = Except.error "No command found"
    ∧ GitCommandState.extract_git_command "show" = Except.error "No command found" :=
  ⟨verbTable_isSome_eq_mutate, extract_isOk_iff_mutate, by rfl, by rfl, by rfl, by rfl⟩

/-- C10 witness: the table coincidence applied at the space-free verb
"push". -/
theorem C10_witness :
    ∃ k, GitCommandState.extract_git_command "push" = Except.ok k :=
  (C10_tables_coincide.2.1 "push" (by decide)).mpr (by decide)
